import Mathlib

/-!
Verification development for the turborepo core consisting of
`crates/turbopack-ecmascript/src/renamer/mod.rs` and
`crates/turbopack-ecmascript/src/manifest/loader_item.rs`.

The Rust code is shallowly embedded: `turbo_tasks` `Vc` cells become plain
values, async functions become pure functions, and fallible functions return
`Except`.  External collaborators that are not part of the two source files
(the swc `hygiene` pass, `EvalContext`, `ParseResult`, `ManifestChunkAsset`,
`ChunkData`) are modelled from their documented contracts and from the spec,
as noted on each definition.
-/

/-! ## Renamer: data model

An identifier occurrence in a parsed program.  In swc an identifier carries a
surface symbol and a syntax context (its hygiene identity); the resolver links
a reference to its binding by giving both the same `(sym, ctxt)` pair, and
marks unresolved references with the dedicated unresolved mark as their
context.  `isBinding` records whether the occurrence declares a binding and
`topLevel` whether it sits at module scope. -/
structure Occ where
  sym : String
  ctxt : Nat
  isBinding : Bool
  topLevel : Bool
deriving DecidableEq, Repr

/-- A parsed program, abstracted to its identifier occurrences in source
order.  Renaming only ever rewrites identifiers, so this is the part of the
AST the renamer claims are about. -/
structure Program where
  occurrences : List Occ
deriving DecidableEq, Repr

/-- Modelled from the spec: the Scope Analyzer output (`EvalContext` in
`crates/turbopack-ecmascript/src/analyzer/graph.rs`, which is not under
`src/`).  It records the two opaque scope marks and the set of top-level
bindings computed from the program. -/
structure EvalContext where
  unresolved_mark : Nat
  top_level_mark : Nat
  topLevelBindings : List (String × Nat)
deriving DecidableEq, Repr

/-- Modelled from the spec: `EvalContext::new(&program, unresolved_mark,
top_level_mark, false, None)` recomputes the scope analysis of `program`
using the two given marks. -/
def EvalContext.new (program : Program) (unresolved_mark top_level_mark : Nat) :
    EvalContext :=
  { unresolved_mark := unresolved_mark
    top_level_mark := top_level_mark
    topLevelBindings := program.occurrences.filterMap fun o =>
      if o.isBinding && o.topLevel then some (o.sym, o.ctxt) else none }

/-- Modelled from the spec: `ParseResult` of
`crates/turbopack-ecmascript/src/parse.rs` (not under `src/`).  `Ok` carries
the program with its comment table, scope analysis, interned globals and
source map (the latter three as opaque handles); the other variants represent
failed parses. -/
inductive ParseResult where
  | Ok (program : Program) (comments : Nat) (eval_context : EvalContext)
      (globals : Nat) (source_map : Nat)
  | Unparseable (messages : Option (List String))
  | NotFound
deriving DecidableEq, Repr

/-- Whether a `ParseResult` is the success variant. -/
def ParseResult.isOk : ParseResult → Bool
  | .Ok _ _ _ _ _ => true
  | _ => false

/-! ## The hygiene pass

`rename_module` applies swc's `hygiene()` visitor, an external collaborator.
Its contract: within a single program, every binding keeps its surface name
unless another binding with the same symbol but a different syntax context
precedes it, in which case it is renamed to `sym ++ toString n` for a
collision counter `n`; the rename is applied to every occurrence sharing the
binding's `(sym, ctxt)` pair, and occurrences whose `(sym, ctxt)` matches no
binding (in particular unresolved references) are left untouched.  Contexts
are never changed. -/

/-- The binding occurrences of a program, as `(sym, ctxt)` pairs in source
order. -/
def bindingsOf (p : Program) : List (String × Nat) :=
  p.occurrences.filterMap fun o =>
    if o.isBinding then some (o.sym, o.ctxt) else none

/-- Builds the hygiene rename map: walking bindings in order, a binding whose
symbol was already used by a different, earlier binding is assigned a fresh
suffixed name. -/
def renameMapAux : List (String × Nat) → List (String × Nat) →
    List ((String × Nat) × String)
  | _, [] => []
  | seen, (s, c) :: rest =>
    if (s, c) ∈ seen then
      renameMapAux seen rest
    else if (seen.filter fun q => q.1 = s).length = 0 then
      renameMapAux (seen ++ [(s, c)]) rest
    else
      ((s, c), s ++ toString (seen.filter fun q => q.1 = s).length) ::
        renameMapAux (seen ++ [(s, c)]) rest

/-- Looks up the fresh name chosen for a `(sym, ctxt)` key, if any. -/
def findRename (rm : List ((String × Nat) × String)) (k : String × Nat) :
    Option String :=
  match rm with
  | [] => none
  | (k', v) :: rest => if k = k' then some v else findRename rest k

/-- Applies the rename map to one identifier occurrence: only the surface
symbol is ever rewritten, never the context. -/
def applyRen (rm : List ((String × Nat) × String)) (o : Occ) : Occ :=
  match findRename rm (o.sym, o.ctxt) with
  | some s' => { o with sym := s' }
  | none => o

/-- The hygiene pass over one program: computes the rename map from the
program's own bindings and rewrites every occurrence with it. -/
def hygiene (p : Program) : Program :=
  { occurrences := p.occurrences.map (applyRen (renameMapAux [] (bindingsOf p))) }

/-- Embedding of `rename_module` from
`crates/turbopack-ecmascript/src/renamer/mod.rs`: on a successful parse it
clones the program, runs `hygiene` over it, rebuilds the `EvalContext` from
the rewritten program with the original marks, and returns a new `Ok` cell;
any other variant is returned unchanged. -/
def rename_module : ParseResult → ParseResult
  | .Ok program comments eval_context globals source_map =>
    let program' := hygiene program
    .Ok program' comments
      (EvalContext.new program' eval_context.unresolved_mark
        eval_context.top_level_mark)
      globals source_map
  | r => r

/-! ## Manifest loader item: data model

Collaborator types from `turbopack-core` and
`crates/turbopack-ecmascript/src/manifest/chunk_asset.rs` are not under
`src/`; they are modelled from the spec at the granularity the loader item
uses them. -/

/-- Asset identity: a path plus an ordered list of modifier tags.
`with_modifier` appends one tag. -/
structure AssetIdent where
  path : List String
  modifiers : List String
deriving DecidableEq, Repr

/-- Embedding of `AssetIdent::with_modifier`: appends a modifier tag to the
identity. -/
def AssetIdent.with_modifier (i : AssetIdent) (m : String) : AssetIdent :=
  { i with modifiers := i.modifiers ++ [m] }

/-- Embedding of the `modifier()` function of `loader_item.rs`: the fixed
"loader" modifier tag. -/
def modifier : String := "loader"

/-- Modelled from the spec: a chunk as the loader sees it: the output asset
id it is published under, its absolute output path, and the output assets its
chunk data references. -/
structure Chunk where
  assetId : Nat
  path : List String
  dataRefs : List Nat
deriving DecidableEq, Repr

/-- Modelled from the spec: the chunking context surface the loader item
uses, namely its output root. -/
structure ChunkingContext where
  output_root : List String
deriving DecidableEq, Repr

/-- Modelled from the spec: a chunk descriptor produced by the Chunk Data
Translator: a path relative to the output root plus the output assets the
chunk's data references. -/
structure ChunkData where
  serverPath : List String
  references : List Nat
deriving DecidableEq, Repr

/-- Modelled from the spec: `ChunkData::from_asset` translates one chunk
against an output root, yielding `none` when the chunk does not live under
the root. -/
def ChunkData.from_asset (output_root : List String) (chunk : Chunk) :
    Option ChunkData :=
  if List.isPrefixOf output_root chunk.path then
    some { serverPath := chunk.path.drop output_root.length
           references := chunk.dataRefs }
  else
    none

/-- Modelled from the spec: `ChunkData::from_assets` translates a chunk list
against an output root, keeping the translatable ones. -/
def ChunkData.from_assets (output_root : List String) (chunks : List Chunk) :
    List ChunkData :=
  chunks.filterMap (ChunkData.from_asset output_root)

/-- Modelled from the spec: an asset that can be placed into the ecmascript
chunk family; `moduleId` is the id of its chunk item in the manifest's
chunking context (`as_chunk_item(ctx).id()`). -/
structure EcmascriptChunkPlaceable where
  moduleId : Nat
deriving DecidableEq, Repr

/-- Modelled from the spec: the target asset of a dynamic import.
`placeable` is the result of `Vc::try_resolve_downcast::<Box<dyn
EcmascriptChunkPlaceable>>`: `some` when the asset belongs to the ecmascript
chunk family, `none` otherwise. -/
structure Asset where
  placeable : Option EcmascriptChunkPlaceable
deriving DecidableEq, Repr

/-- Modelled from the spec: the `ManifestChunkAsset` collaborator
(`manifest/chunk_asset.rs`, not under `src/`).  `manifestChunksList` is the
value of its `manifest_chunks()` function (the manifest asset's own chunk
set) and `itemId` the id of its own chunk item
(`as_chunk_item(chunking_context).id()`). -/
structure ManifestChunkAsset where
  asset : Asset
  chunking_context : ChunkingContext
  ident : AssetIdent
  manifestChunksList : List Chunk
  itemId : Nat
deriving DecidableEq, Repr

/-- Modelled from the spec: `manifest_chunks()` of the manifest chunk
asset. -/
def ManifestChunkAsset.manifest_chunks (m : ManifestChunkAsset) : List Chunk :=
  m.manifestChunksList

/-- Embedding of the `ManifestLoaderItem` struct of `loader_item.rs`. -/
structure ManifestLoaderItem where
  manifest : ManifestChunkAsset
  chunking_context : ChunkingContext
deriving DecidableEq, Repr

/-- Embedding of `ManifestLoaderItem::new`: stores the two references in a
new cell. -/
def ManifestLoaderItem.new (manifest : ManifestChunkAsset)
    (chunking_context : ChunkingContext) : ManifestLoaderItem :=
  { manifest := manifest, chunking_context := chunking_context }

/-- Embedding of `ManifestLoaderItem::chunks_data`: translates the manifest
asset's own chunks via the Chunk Data Translator against the chunking
context's output root. -/
def ManifestLoaderItem.chunks_data (self : ManifestLoaderItem) :
    List ChunkData :=
  ChunkData.from_assets self.chunking_context.output_root
    self.manifest.manifest_chunks

/-- A module reference to a single output asset, carrying a diagnostic
description (`SingleOutputAssetReference`). -/
structure SingleOutputAssetReference where
  asset : Nat
  description : String
deriving DecidableEq, Repr

/-- Embedding of the `manifest_loader_chunk_reference_description()`
function. -/
def manifest_loader_chunk_reference_description : String :=
  "manifest loader chunk"

/-- Embedding of the `chunk_data_reference_description()` function. -/
def chunk_data_reference_description : String := "chunk data reference"

/-- Embedding of `ChunkItem::asset_ident` for `ManifestLoaderItem`: the
manifest's identity with the "loader" modifier appended. -/
def ManifestLoaderItem.asset_ident (self : ManifestLoaderItem) : AssetIdent :=
  self.manifest.ident.with_modifier modifier

/-- Embedding of `ChunkItem::references` for `ManifestLoaderItem`: one
reference per manifest chunk, then one reference per output asset referenced
by each `ChunkData` entry of `chunks_data()`. -/
def ManifestLoaderItem.references (self : ManifestLoaderItem) :
    List SingleOutputAssetReference :=
  (self.manifest.manifest_chunks.map fun chunk =>
    { asset := chunk.assetId
      description := manifest_loader_chunk_reference_description }) ++
  self.chunks_data.flatMap fun chunk_data =>
    chunk_data.references.map fun output_asset =>
      { asset := output_asset
        description := chunk_data_reference_description }

/-- Modelled from the spec: availability info snapshot, opaque to the loader
item. -/
structure AvailabilityInfo where
  token : Nat
deriving DecidableEq, Repr

/-- Modelled from the spec: the concrete ecmascript chunk value constructed
by `as_chunk`; it only stores the three references passed to
`EcmascriptChunk::new`. -/
structure EcmascriptChunk where
  chunking_context : ChunkingContext
  main_entry : ManifestChunkAsset
  availability_info : AvailabilityInfo
deriving DecidableEq, Repr

/-- Embedding of `ChunkItem::as_chunk` for `ManifestLoaderItem`: builds an
ecmascript chunk around the manifest asset, parameterized by the availability
snapshot. -/
def ManifestLoaderItem.as_chunk (self : ManifestLoaderItem)
    (availability_info : AvailabilityInfo) : EcmascriptChunk :=
  { chunking_context := self.chunking_context
    main_entry := self.manifest
    availability_info := availability_info }

/-! ## Code generation (`content`) and the generated loader's runtime

The `content` function of `loader_item.rs` writes a fixed code template:

`__turbopack_export_value__((__turbopack_import__) => {
   return Promise.all(CHUNKS_SERVER_DATA.map((chunk) => __turbopack_load__(chunk))).then(() => {
     return __turbopack_require__(ITEM_ID);
   }).then((chunks) => {
     return Promise.all(chunks.map((chunk) => __turbopack_load__(chunk)));
   }).then(() => {
     return __turbopack_import__(DYNAMIC_ID);
   });
 });`

The template is embedded structurally: its three holes as `LoaderCode`, and
its fixed promise chain as the step list `loaderSteps`, interpreted against a
runtime environment modelled from the spec's wire contract. -/

/-- Embedding of `EcmascriptChunkData`: the JS-serializable form of a chunk
descriptor, keeping only the server-relative path. -/
structure EcmascriptChunkData where
  path : List String
deriving DecidableEq, Repr

/-- Embedding of `EcmascriptChunkData::new`. -/
def EcmascriptChunkData.new (chunk_data : ChunkData) : EcmascriptChunkData :=
  { path := chunk_data.serverPath }

/-- The three holes of the generated code template. -/
structure LoaderCode where
  chunksServerData : List EcmascriptChunkData
  itemId : Nat
  dynamicId : Nat
deriving DecidableEq, Repr

/-- Embedding of `EcmascriptChunkItemContent`: only the `inner_code` field is
set by `content` (the rest is `Default::default()`), and the inner code of a
loader item is always an instance of the fixed template. -/
structure EcmascriptChunkItemContent where
  inner_code : LoaderCode
deriving DecidableEq, Repr

/-- Embedding of `EcmascriptChunkItem::content` for `ManifestLoaderItem`:
resolves the chunk descriptors, the manifest chunk item's id and the target
module's id, failing when the target asset is not placeable in an ecmascript
chunk, and emits the generated module. -/
def ManifestLoaderItem.content (self : ManifestLoaderItem) :
    Except String EcmascriptChunkItemContent :=
  let manifest := self.manifest
  let chunks_server_data := self.chunks_data
  let item_id := manifest.itemId
  match manifest.asset.placeable with
  | none => .error "asset is not placeable in ecmascript chunk"
  | some placeable =>
    .ok { inner_code :=
            { chunksServerData := chunks_server_data.map EcmascriptChunkData.new
              itemId := item_id
              dynamicId := placeable.moduleId } }

/-- A runtime event observable by the module-loading runtime: a chunk load
request, a `__turbopack_require__`, or a `__turbopack_import__`. -/
inductive RtEvent where
  | load (path : List String)
  | requireMod (id : Nat)
  | importMod (id : Nat)
deriving DecidableEq, Repr

/-- One step of the generated promise chain: `Promise.all` over loads of a
literal chunk list, a require, `Promise.all` over loads of the previous
step's result, or the final import. -/
inductive JsStep where
  | allLoadConst (cs : List EcmascriptChunkData)
  | requireStep (id : Nat)
  | allLoadPrev
  | importStep (id : Nat)
deriving DecidableEq, Repr

/-- The promise chain of the generated code template, transcribed step by
step from the `writedoc!` template in `content`. -/
def loaderSteps (c : LoaderCode) : List JsStep :=
  [.allLoadConst c.chunksServerData, .requireStep c.itemId, .allLoadPrev,
    .importStep c.dynamicId]

/-- Modelled from the spec: the runtime loader environment the generated
module runs against.  `requireResult` gives the chunk list the manifest item
yields when required; `importResult` is the import callback. -/
structure Runtime (V : Type) where
  requireResult : Nat → List (List String)
  importResult : Nat → V

/-- A value flowing through the promise chain. -/
inductive JsVal (V : Type) where
  | undef
  | chunks (cs : List (List String))
  | ret (v : V)

/-- Executes one promise-chain step, yielding the runtime events it issues
and the value it resolves to. -/
def execStep {V : Type} (rt : Runtime V) (prev : JsVal V) :
    JsStep → List RtEvent × JsVal V
  | .allLoadConst cs => (cs.map fun c => .load c.path, .undef)
  | .requireStep id => ([.requireMod id], .chunks (rt.requireResult id))
  | .allLoadPrev =>
    match prev with
    | .chunks cs => (cs.map RtEvent.load, .undef)
    | _ => ([], .undef)
  | .importStep id => ([.importMod id], .ret (rt.importResult id))

/-- Executes a promise chain in order, concatenating the event traces of its
steps and threading each step's resolution value into the next. -/
def execChain {V : Type} (rt : Runtime V) :
    JsVal V → List JsStep → List RtEvent × JsVal V
  | v, [] => ([], v)
  | v, s :: rest =>
    let r := execStep rt v s
    let r' := execChain rt r.2 rest
    (r.1 ++ r'.1, r'.2)

/-! ## Effect traces

For the temporal (laziness) claim, each operation of the core is paired with
the trace of collaborator computations it requests, transcribed from the call
sequence in the source.  `manifestTraversal` stands for the expensive
transitive chunk traversal, which per the spec happens when the manifest
chunk item's content is produced. -/

/-- A collaborator computation that an operation may request. -/
inductive Effect where
  | cellNew
  | manifestChunks
  | chunkDataFromAssets
  | ecmascriptChunkNew
  | manifestItemId
  | downcastTarget
  | targetItemId
  | manifestTraversal
deriving DecidableEq, Repr

/-- The operations of the core whose evaluation behavior the spec
describes. -/
inductive Op where
  | newOp
  | chunksDataOp
  | referencesOp
  | asChunkOp
  | contentOp
  | manifestContentOp
deriving DecidableEq, Repr

/-- The trace of collaborator computations each operation requests, in
source order.  `ManifestLoaderItem::new` only allocates its cell;
`chunks_data` requests the manifest chunk set and translates it;
`references` requests the manifest chunk set and then `chunks_data`;
`as_chunk` only constructs an `EcmascriptChunk` value around the manifest
reference; `content` requests `chunks_data`, the manifest item's id, the
downcast of the target and the target item's id.  Modelled from the spec:
requesting the manifest chunk item's content (`manifestContentOp`) performs
the expensive traversal. -/
def traceOf : Op → List Effect
  | .newOp => [.cellNew]
  | .chunksDataOp => [.manifestChunks, .chunkDataFromAssets]
  | .referencesOp => [.manifestChunks, .manifestChunks, .chunkDataFromAssets]
  | .asChunkOp => [.ecmascriptChunkNew]
  | .contentOp =>
    [.manifestChunks, .chunkDataFromAssets, .manifestItemId, .downcastTarget,
      .targetItemId]
  | .manifestContentOp => [.manifestTraversal]

/-! ## Spec-side formulations and sample inputs -/

/-- The free-variable surface of a program: the surface names of its
occurrences carrying the unresolved mark as context. -/
def Program.freeVars (p : Program) (unresolved_mark : Nat) : List String :=
  (p.occurrences.filter fun o => o.ctxt = unresolved_mark).map fun o => o.sym

/-- The reference set as §4.1 of the spec words it: one "manifest loader
chunk" reference for every chunk of the manifest asset, together with one
"chunk data reference" for every output asset carried by each of that
manifest's ChunkData entries. -/
def referencesSpec (item : ManifestLoaderItem) :
    List SingleOutputAssetReference :=
  (item.manifest.manifest_chunks.map fun chunk =>
    { asset := chunk.assetId
      description := "manifest loader chunk" : SingleOutputAssetReference }) ++
  item.chunks_data.flatMap fun chunk_data =>
    chunk_data.references.map fun output_asset =>
      { asset := output_asset, description := "chunk data reference" }

/-- A one-binding program declaring the top-level name "foo" with syntax
context `c`: the shape of the cross-program collision scenario of §8. -/
def progTopFoo (c : Nat) : Program :=
  { occurrences := [{ sym := "foo", ctxt := c, isBinding := true,
                      topLevel := true }] }

/-- A small program with one top-level binding and one unresolved (free)
reference, for witnesses. -/
def prog0 : Program :=
  { occurrences :=
      [{ sym := "a", ctxt := 1, isBinding := true, topLevel := true },
       { sym := "g", ctxt := 100, isBinding := false, topLevel := false }] }

/-- A placeable sample asset whose chunk item has module id 42. -/
def asset0 : Asset := { placeable := some { moduleId := 42 } }

/-- A sample asset outside the ecmascript chunk family. -/
def assetNP : Asset := { placeable := none }

/-- A sample chunking context. -/
def ctx0 : ChunkingContext := { output_root := ["out"] }

/-- A sample chunk under the output root whose data references output
asset 5. -/
def chunkA : Chunk := { assetId := 1, path := ["out", "a.js"], dataRefs := [5] }

/-- A second sample chunk whose data also references output asset 5. -/
def chunkB : Chunk := { assetId := 2, path := ["out", "b.js"], dataRefs := [5] }

/-- A sample manifest chunk asset over a placeable target. -/
def mca0 : ManifestChunkAsset :=
  { asset := asset0
    chunking_context := ctx0
    ident := { path := ["src", "m.js"], modifiers := [] }
    manifestChunksList := [chunkA, chunkB]
    itemId := 7 }

/-- The loader item over `mca0`. -/
def item0 : ManifestLoaderItem := ManifestLoaderItem.new mca0 ctx0

/-- A manifest chunk asset whose target is not placeable. -/
def mcaNP : ManifestChunkAsset := { mca0 with asset := assetNP }

/-- The loader item over `mcaNP`. -/
def itemNP : ManifestLoaderItem := ManifestLoaderItem.new mcaNP ctx0

/-- A sample runtime environment: requiring any module yields one further
chunk, and the import callback returns the imported module id. -/
def rt0 : Runtime Nat :=
  { requireResult := fun _ => [["out", "c.js"]], importResult := fun i => i }

/-! ## Helper lemmas about the hygiene pass -/

theorem renameMapAux_key_mem (l : List (String × Nat)) :
    ∀ (seen : List (String × Nat)) (k : String × Nat) (v : String),
      (k, v) ∈ renameMapAux seen l → k ∈ l := by
  induction l with
  | nil => intro seen k v h; simp [renameMapAux] at h
  | cons hd tl ih =>
    intro seen k v h
    obtain ⟨s, c⟩ := hd
    rw [renameMapAux] at h
    by_cases h1 : (s, c) ∈ seen
    · simp only [if_pos h1] at h
      exact List.mem_cons_of_mem _ (ih seen k v h)
    · simp only [if_neg h1] at h
      by_cases h2 : (List.filter (fun q => decide (q.1 = s)) seen).length = 0
      · simp only [if_pos h2] at h
        exact List.mem_cons_of_mem _ (ih _ k v h)
      · simp only [if_neg h2, List.mem_cons] at h
        rcases h with h | h
        · rw [Prod.mk.injEq] at h
          exact h.1 ▸ List.mem_cons_self _ _
        · exact List.mem_cons_of_mem _ (ih _ k v h)

theorem findRename_some_mem (rm : List ((String × Nat) × String))
    (k : String × Nat) (v : String) (h : findRename rm k = some v) :
    (k, v) ∈ rm := by
  induction rm with
  | nil => simp [findRename] at h
  | cons hd tl ih =>
    obtain ⟨k', v'⟩ := hd
    rw [findRename] at h
    by_cases hk : k = k'
    · simp only [if_pos hk] at h
      cases h
      exact hk ▸ List.mem_cons_self _ _
    · simp only [if_neg hk] at h
      exact List.mem_cons_of_mem _ (ih h)

theorem applyRen_ctxt (rm : List ((String × Nat) × String)) (o : Occ) :
    (applyRen rm o).ctxt = o.ctxt := by
  unfold applyRen
  cases h : findRename rm (o.sym, o.ctxt) <;> simp

theorem applyRen_sym_congr (rm : List ((String × Nat) × String)) (o1 o2 : Occ)
    (hs : o1.sym = o2.sym) (hc : o1.ctxt = o2.ctxt) :
    (applyRen rm o1).sym = (applyRen rm o2).sym := by
  unfold applyRen
  rw [hs, hc]
  cases h : findRename rm (o2.sym, o2.ctxt) <;> simp [hs]

theorem applyRen_not_bound (p : Program) (o : Occ)
    (h : (o.sym, o.ctxt) ∉ bindingsOf p) :
    applyRen (renameMapAux [] (bindingsOf p)) o = o := by
  unfold applyRen
  cases hf : findRename (renameMapAux [] (bindingsOf p)) (o.sym, o.ctxt) with
  | none => rfl
  | some s' =>
    exact absurd
      (renameMapAux_key_mem (bindingsOf p) [] _ _ (findRename_some_mem _ _ _ hf)) h

theorem bindingsOf_mem (p : Program) (s : String) (c : Nat)
    (h : (s, c) ∈ bindingsOf p) :
    ∃ o ∈ p.occurrences, o.isBinding = true ∧ o.sym = s ∧ o.ctxt = c := by
  unfold bindingsOf at h
  rw [List.mem_filterMap] at h
  obtain ⟨o, ho, heq⟩ := h
  by_cases hb : o.isBinding
  · refine ⟨o, ho, hb, ?_, ?_⟩ <;>
      · simp only [hb, if_pos] at heq
        cases heq
        rfl
  · simp [hb] at heq

theorem filter_map_preserving {f : Occ → Occ} {um : Nat} :
    ∀ l : List Occ,
      (∀ o ∈ l, (f o).ctxt = o.ctxt) →
      (∀ o ∈ l, o.ctxt = um → f o = o) →
      ((l.map f).filter fun o => o.ctxt = um).map (fun o => o.sym) =
        (l.filter fun o => o.ctxt = um).map fun o => o.sym := by
  intro l
  induction l with
  | nil => intro _ _; rfl
  | cons hd tl ih =>
    intro hctxt hfix
    have ih' := ih (fun o ho => hctxt o (List.mem_cons_of_mem _ ho))
      (fun o ho => hfix o (List.mem_cons_of_mem _ ho))
    have hchd := hctxt hd (List.mem_cons_self _ _)
    by_cases h : hd.ctxt = um
    · have hf : (f hd).ctxt = um := hchd.trans h
      simp [List.filter_cons, h, hf, hfix hd (List.mem_cons_self _ _) h, ih']
    · have hf : ¬ (f hd).ctxt = um := fun hc => h (hchd.symm.trans hc)
      simp [List.filter_cons, h, hf, ih']

/-! ## Claim theorems -/

/-- C5: for every input representing a failed parse (any `ParseResult`
variant other than `Ok`), `rename_module` returns the identical existing
value unchanged, producing no new error and no re-wrapping. -/
theorem rename_module_failure_passthrough (r : ParseResult)
    (h : r.isOk = false) : rename_module r = r := by
  cases r with
  | Ok p c e g s => simp [ParseResult.isOk] at h
  | Unparseable m => rfl
  | NotFound => rfl

/-- Witness for C5 at a concrete `Unparseable` value. -/
theorem rename_module_failure_passthrough_witness :
    (ParseResult.Unparseable (some ["unexpected token"])).isOk = false ∧
    rename_module (ParseResult.Unparseable (some ["unexpected token"])) =
      ParseResult.Unparseable (some ["unexpected token"]) :=
  ⟨rfl, rename_module_failure_passthrough _ rfl⟩

/-- C10: on a successfully parsed input, `rename_module` returns `Ok` whose
comments, globals and source map are exactly those of the input, whose
program is the hygiene-rewritten program, and whose eval context is rebuilt
from the rewritten program with the input's original `unresolved_mark` and
`top_level_mark`; no other field differs. -/
theorem rename_module_frame (p : Program) (comments globals source_map : Nat)
    (e : EvalContext) :
    rename_module (.Ok p comments e globals source_map) =
      .Ok (hygiene p) comments
        (EvalContext.new (hygiene p) e.unresolved_mark e.top_level_mark)
        globals source_map := rfl

/-- C7: a loader item's asset identity is the held manifest's identity with
the fixed "loader" modifier appended, and two loader items constructed from
equal (manifest, chunking context) inputs are the same item with the same
identity. -/
theorem manifest_loader_item_identity (m1 m2 : ManifestChunkAsset)
    (c1 c2 : ChunkingContext) (hm : m1 = m2) (hc : c1 = c2) :
    (ManifestLoaderItem.new m1 c1).asset_ident =
      m1.ident.with_modifier modifier ∧
    ManifestLoaderItem.new m1 c1 = ManifestLoaderItem.new m2 c2 ∧
    (ManifestLoaderItem.new m1 c1).asset_ident =
      (ManifestLoaderItem.new m2 c2).asset_ident := by
  subst hm
  subst hc
  exact ⟨rfl, rfl, rfl⟩

/-- Witness for C7 at the sample manifest and context. -/
theorem manifest_loader_item_identity_witness :
    mca0 = mca0 ∧ ctx0 = ctx0 ∧
    ((ManifestLoaderItem.new mca0 ctx0).asset_ident =
        mca0.ident.with_modifier modifier ∧
      ManifestLoaderItem.new mca0 ctx0 = ManifestLoaderItem.new mca0 ctx0 ∧
      (ManifestLoaderItem.new mca0 ctx0).asset_ident =
        (ManifestLoaderItem.new mca0 ctx0).asset_ident) :=
  ⟨rfl, rfl, manifest_loader_item_identity mca0 mca0 ctx0 ctx0 rfl rfl⟩

/-- C8: `chunks_data()` is exactly the Chunk Data Translator applied to the
manifest asset's own chunk set against the chunking context's output root,
and it is a pure function of those two inputs: items agreeing on them have
equal chunk data. -/
theorem chunks_data_contract (item1 item2 : ManifestLoaderItem)
    (hchunks : item2.manifest.manifest_chunks = item1.manifest.manifest_chunks)
    (hroot : item2.chunking_context.output_root =
      item1.chunking_context.output_root) :
    item1.chunks_data =
      ChunkData.from_assets item1.chunking_context.output_root
        item1.manifest.manifest_chunks ∧
    item2.chunks_data = item1.chunks_data := by
  constructor
  · rfl
  · unfold ManifestLoaderItem.chunks_data
    rw [hchunks, hroot]

/-- Witness for C8 at the sample loader item. -/
theorem chunks_data_contract_witness :
    item0.manifest.manifest_chunks = item0.manifest.manifest_chunks ∧
    item0.chunking_context.output_root = item0.chunking_context.output_root ∧
    (item0.chunks_data =
        ChunkData.from_assets item0.chunking_context.output_root
          item0.manifest.manifest_chunks ∧
      item0.chunks_data = item0.chunks_data) :=
  ⟨rfl, rfl, chunks_data_contract item0 item0 rfl rfl⟩

/-- C3 counterexample: for `item0`, whose two manifest chunks both carry a
chunk-data reference to output asset 5, `references()` lists the
"chunk data reference" to asset 5 twice — the computed reference list is not
duplicate-free, contrary to the claim. -/
theorem references_counterexample : ¬ item0.references.Nodup := by decide

/-- C3 (amended): `references()` returns exactly the spec's union — one
"manifest loader chunk" reference per chunk of the manifest asset followed by
one "chunk data reference" per output asset carried by each ChunkData
entry — but without deduplication, so the list may repeat a reference when
two ChunkData entries share a referenced output asset. -/
theorem references_contract :
    ∀ item : ManifestLoaderItem, item.references = referencesSpec item :=
  fun _ => rfl

/-- C4: `content()` fails, with the build error of the source and producing
no generated code, exactly when the manifest's target asset cannot be
downcast to `EcmascriptChunkPlaceable`; it produces generated code exactly
when the target is placeable. -/
theorem content_error_iff_not_placeable (item : ManifestLoaderItem) :
    (item.content = .error "asset is not placeable in ecmascript chunk" ↔
      item.manifest.asset.placeable = none) ∧
    ((∃ c, item.content = .ok c) ↔ item.manifest.asset.placeable ≠ none) := by
  unfold ManifestLoaderItem.content
  cases h : item.manifest.asset.placeable with
  | none => simp [h]
  | some pl => simp [h]

/-- Witness for C4 at the non-placeable sample item. -/
theorem content_error_iff_not_placeable_witness :
    itemNP.content = .error "asset is not placeable in ecmascript chunk" :=
  (content_error_iff_not_placeable itemNP).1.mpr rfl

/-- C9: the expensive transitive traversal appears in the trace of neither
`new` nor `as_chunk`; among all modelled operations it appears only in the
trace of requesting the manifest chunk item's content. -/
theorem traversal_is_lazy :
    Effect.manifestTraversal ∉ traceOf .newOp ∧
    Effect.manifestTraversal ∉ traceOf .asChunkOp ∧
    ∀ op : Op, Effect.manifestTraversal ∈ traceOf op →
      op = .manifestContentOp := by
  refine ⟨by decide, by decide, ?_⟩
  intro op h
  cases op <;> revert h <;> decide

/-- Witness for C9: the traversal does occur when the manifest chunk item's
content is requested. -/
theorem traversal_is_lazy_witness :
    Effect.manifestTraversal ∈ traceOf .manifestContentOp ∧
    Op.manifestContentOp = .manifestContentOp :=
  ⟨by decide, traversal_is_lazy.2.2 .manifestContentOp (by decide)⟩

/-- C1: for a placeable target, `content` emits the generated module and,
run against any runtime environment, its exported loader issues parallel
load requests for every declared chunk descriptor, then requires the
manifest item's module id, then issues parallel load requests for the chunk
list that require yielded, then invokes the import callback on the target
module id and returns its result — in exactly that phase order. -/
theorem content_phase_order {V : Type} (item : ManifestLoaderItem)
    (rt : Runtime V) (pl : EcmascriptChunkPlaceable)
    (h : item.manifest.asset.placeable = some pl) :
    ∃ c, item.content = .ok c ∧
      execChain rt .undef (loaderSteps c.inner_code) =
        ((item.chunks_data.map fun cd => RtEvent.load cd.serverPath) ++
          ([RtEvent.requireMod item.manifest.itemId] ++
            (((rt.requireResult item.manifest.itemId).map RtEvent.load) ++
              [RtEvent.importMod pl.moduleId])),
          JsVal.ret (rt.importResult pl.moduleId)) := by
  refine ⟨{ inner_code :=
              { chunksServerData := item.chunks_data.map EcmascriptChunkData.new
                itemId := item.manifest.itemId
                dynamicId := pl.moduleId } }, ?_, ?_⟩
  · simp [ManifestLoaderItem.content, h]
  · simp [loaderSteps, execChain, execStep, List.map_map, Function.comp,
      EcmascriptChunkData.new]

/-- Witness for C1 at the sample item and runtime. -/
theorem content_phase_order_witness :
    item0.manifest.asset.placeable = some { moduleId := 42 } ∧
    ∃ c, item0.content = .ok c ∧
      execChain rt0 .undef (loaderSteps c.inner_code) =
        ((item0.chunks_data.map fun cd => RtEvent.load cd.serverPath) ++
          ([RtEvent.requireMod item0.manifest.itemId] ++
            (((rt0.requireResult item0.manifest.itemId).map RtEvent.load) ++
              [RtEvent.importMod 42])),
          JsVal.ret (rt0.importResult 42)) :=
  ⟨rfl, content_phase_order item0 rt0 { moduleId := 42 } rfl⟩

/-- C6: on a well-formed parse (no binding occurrence carries the unresolved
mark as its context), renaming preserves the free-variable surface of the
program, leaves every unresolved occurrence entirely untouched, preserves
every occurrence's binding identity (context), and keeps resolved references
attached to their bindings: occurrences agreeing on surface name and context
before renaming still agree on their surface name after. -/
theorem rename_module_conservative (p : Program)
    (comments globals source_map : Nat) (e : EvalContext)
    (hwf : ∀ o ∈ p.occurrences, o.isBinding = true →
      o.ctxt ≠ e.unresolved_mark) :
    ∃ p' e',
      rename_module (.Ok p comments e globals source_map) =
        .Ok p' comments e' globals source_map ∧
      p'.freeVars e.unresolved_mark = p.freeVars e.unresolved_mark ∧
      p'.occurrences.length = p.occurrences.length ∧
      (∀ i (hi : i < p.occurrences.length) (hi' : i < p'.occurrences.length),
        (p'.occurrences.get ⟨i, hi'⟩).ctxt =
          (p.occurrences.get ⟨i, hi⟩).ctxt ∧
        ((p.occurrences.get ⟨i, hi⟩).ctxt = e.unresolved_mark →
          p'.occurrences.get ⟨i, hi'⟩ = p.occurrences.get ⟨i, hi⟩)) ∧
      (∀ i j (hi : i < p.occurrences.length) (hj : j < p.occurrences.length)
        (hi' : i < p'.occurrences.length) (hj' : j < p'.occurrences.length),
        (p.occurrences.get ⟨i, hi⟩).sym = (p.occurrences.get ⟨j, hj⟩).sym →
        (p.occurrences.get ⟨i, hi⟩).ctxt = (p.occurrences.get ⟨j, hj⟩).ctxt →
        (p'.occurrences.get ⟨i, hi'⟩).sym =
          (p'.occurrences.get ⟨j, hj'⟩).sym) := by
  refine ⟨hygiene p,
    EvalContext.new (hygiene p) e.unresolved_mark e.top_level_mark,
    rfl, ?_, ?_, ?_, ?_⟩
  all_goals
    have hfix : ∀ o ∈ p.occurrences, o.ctxt = e.unresolved_mark →
        applyRen (renameMapAux [] (bindingsOf p)) o = o := by
      intro o _ hum
      refine applyRen_not_bound p o fun hmem => ?_
      obtain ⟨o2, ho2, hb2, _, hc2⟩ := bindingsOf_mem p o.sym o.ctxt hmem
      exact hwf o2 ho2 hb2 (hc2.trans hum)
  · exact filter_map_preserving p.occurrences
      (fun o _ => applyRen_ctxt _ o) hfix
  · simp [hygiene]
  · intro i hi hi'
    have hget : (hygiene p).occurrences.get ⟨i, hi'⟩ =
        applyRen (renameMapAux [] (bindingsOf p))
          (p.occurrences.get ⟨i, hi⟩) := by
      simp [hygiene, List.get_eq_getElem, List.getElem_map]
    refine ⟨hget ▸ applyRen_ctxt _ _, fun hum => ?_⟩
    exact hget.trans (hfix _ (p.occurrences.get_mem i hi) hum)
  · intro i j hi hj hi' hj' hs hc
    have hgi : (hygiene p).occurrences.get ⟨i, hi'⟩ =
        applyRen (renameMapAux [] (bindingsOf p))
          (p.occurrences.get ⟨i, hi⟩) := by
      simp [hygiene, List.get_eq_getElem, List.getElem_map]
    have hgj : (hygiene p).occurrences.get ⟨j, hj'⟩ =
        applyRen (renameMapAux [] (bindingsOf p))
          (p.occurrences.get ⟨j, hj⟩) := by
      simp [hygiene, List.get_eq_getElem, List.getElem_map]
    rw [hgi, hgj]
    exact applyRen_sym_congr _ _ _ hs hc

/-- Witness for C6 at the sample program (one top-level binding "a", one
unresolved reference "g", unresolved mark 100). -/
theorem rename_module_conservative_witness :
    (∀ o ∈ prog0.occurrences, o.isBinding = true →
      o.ctxt ≠ (EvalContext.new prog0 100 7).unresolved_mark) ∧
    ∃ p' e',
      rename_module (.Ok prog0 0 (EvalContext.new prog0 100 7) 0 0) =
        .Ok p' 0 e' 0 0 ∧
      p'.freeVars (EvalContext.new prog0 100 7).unresolved_mark =
        prog0.freeVars (EvalContext.new prog0 100 7).unresolved_mark ∧
      p'.occurrences.length = prog0.occurrences.length ∧
      (∀ i (hi : i < prog0.occurrences.length)
        (hi' : i < p'.occurrences.length),
        (p'.occurrences.get ⟨i, hi'⟩).ctxt =
          (prog0.occurrences.get ⟨i, hi⟩).ctxt ∧
        ((prog0.occurrences.get ⟨i, hi⟩).ctxt =
            (EvalContext.new prog0 100 7).unresolved_mark →
          p'.occurrences.get ⟨i, hi'⟩ = prog0.occurrences.get ⟨i, hi⟩)) ∧
      (∀ i j (hi : i < prog0.occurrences.length)
        (hj : j < prog0.occurrences.length)
        (hi' : i < p'.occurrences.length) (hj' : j < p'.occurrences.length),
        (prog0.occurrences.get ⟨i, hi⟩).sym =
          (prog0.occurrences.get ⟨j, hj⟩).sym →
        (prog0.occurrences.get ⟨i, hi⟩).ctxt =
          (prog0.occurrences.get ⟨j, hj⟩).ctxt →
        (p'.occurrences.get ⟨i, hi'⟩).sym =
          (p'.occurrences.get ⟨j, hj'⟩).sym) :=
  ⟨by decide, rename_module_conservative prog0 0 0 0
    (EvalContext.new prog0 100 7) (by decide)⟩

/-- C2: evaluation of the code at the failing input — two distinct programs,
each declaring the single top-level binding "foo" (binding identities 1
and 2), destined for the same merged scope, renamed by `rename_module`
independently: both surface names remain "foo".  No shared, cross-program
naming authority exists in `rename_module`, so the two top-level bindings
collide after merge, contrary to the claim and to the module's own
documentation. -/
theorem rename_module_no_shared_naming_authority :
    ∃ p1' e1' p2' e2',
      rename_module
          (.Ok (progTopFoo 1) 0 (EvalContext.new (progTopFoo 1) 100 7) 0 0) =
        .Ok p1' 0 e1' 0 0 ∧
      rename_module
          (.Ok (progTopFoo 2) 0 (EvalContext.new (progTopFoo 2) 100 7) 0 0) =
        .Ok p2' 0 e2' 0 0 ∧
      p1'.occurrences.map (fun o => o.sym) = ["foo"] ∧
      p2'.occurrences.map (fun o => o.sym) = ["foo"] :=
  ⟨_, _, _, _, rfl, rfl, by decide, by decide⟩
